import Mathlib

/-!
Verification development for a small Go HTTP service exposing CRUD endpoints
over users and messages, backed by PostgreSQL (via pgx and gin).

The embedding translates, from the repository source:
  * `server/queries/users.types.go`   — row and parameter structs;
  * `server/queries/users.queries.go` — `GetUsers`, `CreateUser`, `UpdateUser`
    (the dynamic SET-clause builder is embedded literally; the SQL statements
    are given their relational semantics over an explicit database state);
  * `server/queries/messages.queries.go` — `CreateMessage`;
  * the gin handlers `UpdateUser` (PATCH /users/:user_id) and
    `CreateMessage` (POST /messages);
  * the schema in the docker seed SQL (`users`, `user_types`, `messages`,
    with UNIQUE username/email and the messages → users foreign key).

Machine integers are modelled as `Int`; `pgtype.Text` as a pair of a string
and a validity flag; fallible database calls return `Except DbError`.
-/

/-- Embedding of `pgtype.Text`: a nullable SQL text value.  `valid = false`
means SQL NULL (the `string` component is then the Go zero value `""`). -/
structure PgText where
  string : String
  valid : Bool
deriving DecidableEq, Repr

/-- Converts a `pgtype.Text` to the stored column value: NULL when invalid. -/
def pgTextToDb (t : PgText) : Option String :=
  if t.valid then some t.string else none

/-- Converts a (nullable) stored column value to the `pgtype.Text` that
`rows.Scan` produces for it. -/
def pgTextOfDb : Option String → PgText
  | some s => { string := s, valid := true }
  | none => { string := "", valid := false }

/-- A value passed as a positional SQL parameter (`args ...interface{}`). -/
inductive SqlValue where
  | str (s : String)
  | text (t : PgText)
  | int (n : Int)
deriving DecidableEq, Repr

/-- A row of the `public.users` table (schema from the seed SQL). -/
structure UserRow where
  id : Int
  username : String
  email : String
  nickname : Option String
  userType : String
  createdAt : Int
  messageCount : Int
deriving DecidableEq, Repr

/-- A row of the `public.user_types` table.  `permissionBitfield` holds the
`BIT(8)` column rendered through `::text` (e.g. "10000000").  Note the schema
puts no uniqueness constraint on `type_key`. -/
structure UserTypeRow where
  id : Int
  typeKey : String
  permissionBitfield : String
deriving DecidableEq, Repr

/-- A row of the `public.messages` table. -/
structure MessageRow where
  id : Int
  userId : Int
  content : String
  createdAt : Int
deriving DecidableEq, Repr

/-- The database state: the three tables, the SERIAL counters, and the clock
used for `CURRENT_TIMESTAMP` defaults. -/
structure DB where
  users : List UserRow
  userTypes : List UserTypeRow
  messages : List MessageRow
  nextUserId : Int
  nextMessageId : Int
  now : Int
deriving DecidableEq, Repr

/-- Embedding of `queries.GetUsersQueryRow` (users.types.go). -/
structure GetUsersQueryRow where
  id : Int
  username : String
  email : String
  userType : String
  nickname : PgText
  permissionBitfield : String
  messageCount : Int
deriving DecidableEq, Repr

/-- Embedding of `queries.CreateUserParams` (users.types.go); the `*string`
nickname becomes an `Option`. -/
structure CreateUserParams where
  username : String
  email : String
  userType : String
  nickname : Option String
  messageCount : Int
deriving DecidableEq, Repr

/-- Embedding of `queries.UpdateUserParams` (users.types.go): each field is
independently optional (`*string` in Go, `Option String` here). -/
structure UpdateUserParams where
  username : Option String
  email : Option String
  userType : Option String
  nickname : Option String
deriving DecidableEq, Repr

/-- Errors surfaced by the data-access layer.  Constructors mirror the error
values the Go code can actually produce: `pgx.ErrNoRows` from a
`QueryRow(...).Scan` that matches no row, the hand-rolled
`fmt.Errorf("no fields to update")`, PostgreSQL unique / foreign-key
violations, and `fmt.Errorf("...: %w", err)` wrapping. -/
inductive DbError where
  | noRows
  | noFieldsToUpdate
  | uniqueViolation
  | fkViolation
  | wrapped (context : String) (inner : DbError)
deriving DecidableEq, Repr

/-- The Go `error.Error()` string of each `DbError`. -/
def DbError.message : DbError → String
  | .noRows => "no rows in result set"
  | .noFieldsToUpdate => "no fields to update"
  | .uniqueViolation => "duplicate key value violates unique constraint"
  | .fkViolation => "violates foreign key constraint"
  | .wrapped c e => c ++ ": " ++ e.message

/-! ## UpdateUser, data-access layer (users.queries.go lines 115-185)

The dynamic query builder (`setParts`, `args`, `argCount`) is embedded
literally; the resulting UPDATE statement is then given its relational
semantics over `DB`. -/

/-- The `pgtype.Text` built for a present nickname in `UpdateUser`
(users.queries.go lines 138-144): non-empty string is stored as-is, the
empty string becomes NULL. -/
def updateNicknameText (s : String) : PgText :=
  if s ≠ "" then { string := s, valid := true } else { string := "", valid := false }

/-- State of the dynamic query builder: accumulated SET fragments, positional
arguments, and the running placeholder counter (`argCount` starts at 1). -/
structure UpdateBuild where
  setParts : List String
  args : List SqlValue
  argCount : Nat
deriving DecidableEq, Repr

/-- Embedding of the four conditional appends in `UpdateUser`
(users.queries.go lines 119-148), in source order: username, email,
user_type, nickname. -/
def updateUserBuild (params : UpdateUserParams) : UpdateBuild :=
  let st : UpdateBuild := { setParts := [], args := [], argCount := 1 }
  let st := match params.username with
    | some u => { setParts := st.setParts ++ ["username = $" ++ toString st.argCount],
                  args := st.args ++ [SqlValue.str u], argCount := st.argCount + 1 }
    | none => st
  let st := match params.email with
    | some e => { setParts := st.setParts ++ ["email = $" ++ toString st.argCount],
                  args := st.args ++ [SqlValue.str e], argCount := st.argCount + 1 }
    | none => st
  let st := match params.userType with
    | some t => { setParts := st.setParts ++ ["user_type = $" ++ toString st.argCount],
                  args := st.args ++ [SqlValue.str t], argCount := st.argCount + 1 }
    | none => st
  let st := match params.nickname with
    | some n => { setParts := st.setParts ++ ["nickname = $" ++ toString st.argCount],
                  args := st.args ++ [SqlValue.text (updateNicknameText n)], argCount := st.argCount + 1 }
    | none => st
  st

/-- The rendered UPDATE statement (users.queries.go lines 155-160), with the
SET fragments joined by ", " and the WHERE placeholder at `argCount`. -/
def updateUserQueryText (params : UpdateUserParams) : String :=
  let b := updateUserBuild params
  "UPDATE public.users SET " ++ String.intercalate ", " b.setParts ++
    " WHERE id = $" ++ toString b.argCount ++
    " RETURNING id, username, email, user_type, nickname"

/-- The full positional-argument list passed to the UPDATE:
`args = append(args, userID)` (users.queries.go line 154). -/
def updateUserQueryArgs (params : UpdateUserParams) (userID : Int) : List SqlValue :=
  (updateUserBuild params).args ++ [SqlValue.int userID]

/-- Effect of the UPDATE's SET clause on the matched row: each present field
overwrites the column, nickname through the `pgtype.Text` conversion. -/
def applyUserUpdate (params : UpdateUserParams) (u : UserRow) : UserRow :=
  { u with
    username := params.username.getD u.username
    email := params.email.getD u.email
    userType := params.userType.getD u.userType
    nickname := match params.nickname with
      | none => u.nickname
      | some s => pgTextToDb (updateNicknameText s) }

/-- `WHERE id = $n` row lookup used by UPDATE ... RETURNING / QueryRow. -/
def findUser (db : DB) (userID : Int) : Option UserRow :=
  db.users.find? (fun u => u.id == userID)

/-- The `SELECT permission_bitfield::text FROM user_types WHERE type_key = $1`
lookup via `QueryRow` (first matching row; the schema does not make
`type_key` unique). -/
def lookupBitfield (userTypes : List UserTypeRow) (key : String) : Option String :=
  (userTypes.find? (fun t => t.typeKey == key)).map (fun t => t.permissionBitfield)

/-- True when writing the updated row `u2` over the row `userID` would break the UNIQUE
constraints on `users.username` / `users.email`. -/
def updateConflicts (db : DB) (userID : Int) (u2 : UserRow) : Bool :=
  db.users.any (fun v => v.id != userID && (v.username == u2.username || v.email == u2.email))

/-- Embedding of `queries.UpdateUser` (users.queries.go lines 115-185):
build the SET clause; fail with "no fields to update" when empty; run the
UPDATE (a missing target row makes `QueryRow(...).Scan` return
`pgx.ErrNoRows`); then re-run the bitfield lookup for the possibly new
user type, wrapping a miss in "failed to get permission bitfield"; finally
the returned record's MessageCount is set to the literal 0 (line 183). -/
def runUpdateUser (db : DB) (userID : Int) (params : UpdateUserParams) :
    DB × Except DbError GetUsersQueryRow :=
  let b := updateUserBuild params
  if b.setParts.isEmpty then
    (db, Except.error DbError.noFieldsToUpdate)
  else
    match findUser db userID with
    | none => (db, Except.error DbError.noRows)
    | some u =>
      let u2 := applyUserUpdate params u
      if updateConflicts db userID u2 then
        (db, Except.error DbError.uniqueViolation)
      else
        let db2 : DB :=
          { db with users := db.users.map (fun v => if v.id == userID then applyUserUpdate params v else v) }
        match lookupBitfield db2.userTypes u2.userType with
        | none => (db2, Except.error (DbError.wrapped "failed to get permission bitfield" DbError.noRows))
        | some bf =>
          (db2, Except.ok {
            id := u2.id, username := u2.username, email := u2.email,
            userType := u2.userType, nickname := pgTextOfDb u2.nickname,
            permissionBitfield := bf, messageCount := 0 })

/-! ## CreateUser, data-access layer (users.queries.go lines 66-105) -/

/-- The `pgtype.Text` built for the nickname in `CreateUser`
(users.queries.go lines 70-75): only a non-nil, non-empty nickname is valid;
nil and the explicit empty string both become NULL. -/
def createUserNicknameText (nick : Option String) : PgText :=
  match nick with
  | some s =>
    if s ≠ "" then { string := s, valid := true } else { string := "", valid := false }
  | none => { string := "", valid := false }

/-- Embedding of `queries.CreateUser` (users.queries.go lines 66-105):
INSERT the new row (UNIQUE username/email enforced by the engine,
message_count defaulting to 0), then look up the permission bitfield for the
chosen user type; a lookup miss fails the call after the insert committed.
The returned MessageCount is set to the literal 0 (line 103). -/
def runCreateUser (db : DB) (params : CreateUserParams) :
    DB × Except DbError GetUsersQueryRow :=
  let nickname := createUserNicknameText params.nickname
  if db.users.any (fun v => v.username == params.username || v.email == params.email) then
    (db, Except.error DbError.uniqueViolation)
  else
    let newRow : UserRow :=
      { id := db.nextUserId, username := params.username, email := params.email,
        nickname := pgTextToDb nickname, userType := params.userType,
        createdAt := db.now, messageCount := 0 }
    let db2 : DB := { db with users := db.users ++ [newRow], nextUserId := db.nextUserId + 1 }
    match lookupBitfield db2.userTypes params.userType with
    | none => (db2, Except.error DbError.noRows)
    | some bf =>
      (db2, Except.ok {
        id := newRow.id, username := newRow.username, email := newRow.email,
        userType := newRow.userType, nickname := pgTextOfDb newRow.nickname,
        permissionBitfield := bf, messageCount := 0 })

/-! ## CreateMessage, data-access layer (messages.queries.go lines 57-77) -/

/-- Embedding of `queries.CreateMessageParams`. -/
structure CreateMessageParams where
  userId : Int
  content : String
deriving DecidableEq, Repr

/-- Embedding of `queries.GetMessagesQueryRow`. -/
structure GetMessagesQueryRow where
  id : Int
  userId : Int
  content : String
  createdAt : Int
deriving DecidableEq, Repr

/-- Embedding of `queries.CreateMessage`: INSERT with the
`user_id REFERENCES users(id)` foreign key enforced by the engine; the
created_at column defaults to the current timestamp. -/
def runCreateMessage (db : DB) (params : CreateMessageParams) :
    DB × Except DbError GetMessagesQueryRow :=
  if !(db.users.any (fun u => u.id == params.userId)) then
    (db, Except.error DbError.fkViolation)
  else
    let row : MessageRow :=
      { id := db.nextMessageId, userId := params.userId,
        content := params.content, createdAt := db.now }
    let db2 : DB := { db with messages := db.messages ++ [row], nextMessageId := db.nextMessageId + 1 }
    (db2, Except.ok { id := row.id, userId := row.userId, content := row.content, createdAt := row.createdAt })

/-! ## Transport layer (gin handlers) -/

/-- Outcome of a handler: either a success status with a JSON body or an
error status with the string placed in the error field. -/
inductive HResult (A : Type) where
  | ok (status : Nat) (body : A)
  | err (status : Nat) (msg : String)
deriving DecidableEq, Repr

/-- Embedding of `handlers.UserResponse`: nickname is omitted (None) when
the scanned `pgtype.Text` is invalid. -/
structure UserResponse where
  id : Int
  username : String
  email : String
  userType : String
  nickname : Option String
  messageCount : Int
deriving DecidableEq, Repr

/-- The allowed user types checked by the PATCH handler
(`slices.Contains([]string{...}, *req.UserType)`). -/
def validUserTypes : List String := ["UTYPE_USER", "UTYPE_ADMIN", "UTYPE_MODERATOR"]

/-- Conversion of a query row to the response shape used by the handlers. -/
def userResponseOf (row : GetUsersQueryRow) : UserResponse :=
  { id := row.id, username := row.username, email := row.email,
    userType := row.userType,
    nickname := if row.nickname.valid then some row.nickname.string else none,
    messageCount := row.messageCount }

/-- Embedding of the PATCH /users/:user_id handler (`handlers.UpdateUser`),
after JSON binding and user-id parsing: reject an invalid user_type with
400; call `queries.UpdateUser`; map an error whose message is exactly
"user not found" to 404 and every other error to 400; on success reply 200
with the response shape. -/
def handleUpdateUser (db : DB) (userID : Int) (req : UpdateUserParams) :
    DB × HResult UserResponse :=
  if (match req.userType with
      | some t => !(validUserTypes.contains t)
      | none => false) then
    (db, HResult.err 400 "Invalid user type. Must be one of: UTYPE_USER, UTYPE_ADMIN, UTYPE_MODERATOR")
  else
    match runUpdateUser db userID req with
    | (db2, Except.error e) =>
      if e.message == "user not found" then
        (db2, HResult.err 404 e.message)
      else
        (db2, HResult.err 400 ("Failed to update user: " ++ e.message))
    | (db2, Except.ok row) => (db2, HResult.ok 200 (userResponseOf row))

/-- The JSON body of POST /messages as received on the wire: each field may
be absent. -/
structure RawCreateMessageBody where
  userIdField : Option Int
  contentField : Option String
deriving DecidableEq, Repr

/-- Embedding of `handlers.CreateMessageRequest` after gin JSON binding. -/
structure CreateMessageRequest where
  userID : Int
  content : String
deriving DecidableEq, Repr

/-- Gin JSON binding for `CreateMessageRequest`: absent fields decode to the
zero value, and the `binding:"required"` tags make validation fail exactly
when a field holds its zero value (0 for the int, "" for the string). -/
def bindCreateMessage (body : RawCreateMessageBody) : Except String CreateMessageRequest :=
  let req : CreateMessageRequest :=
    { userID := body.userIdField.getD 0, content := body.contentField.getD "" }
  if req.userID == 0 then
    Except.error "Field validation for UserID failed on the required tag"
  else if req.content == "" then
    Except.error "Field validation for Content failed on the required tag"
  else
    Except.ok req

/-- Embedding of `handlers.MessageResponse`; the created_at timestamp is kept
as the raw value (its ISO-8601 rendering is collaborator formatting). -/
structure MessageResponse where
  id : Int
  userId : Int
  content : String
  createdAt : Int
deriving DecidableEq, Repr

/-- Embedding of the POST /messages handler (`handlers.CreateMessage`): bind
the JSON (only `binding:"required"` validation — the manual checks were
removed in the source), reject binding failures with 400, otherwise call
`queries.CreateMessage` and reply 201, mapping any storage error to 400. -/
def handleCreateMessage (db : DB) (body : RawCreateMessageBody) :
    DB × HResult MessageResponse :=
  match bindCreateMessage body with
  | Except.error e => (db, HResult.err 400 ("Invalid request body: " ++ e))
  | Except.ok req =>
    match runCreateMessage db { userId := req.userID, content := req.content } with
    | (db2, Except.error e) => (db2, HResult.err 400 ("Failed to create message: " ++ e.message))
    | (db2, Except.ok m) =>
      (db2, HResult.ok 201 { id := m.id, userId := m.userId, content := m.content, createdAt := m.createdAt })

/-! ## GetUsers, data-access layer (users.queries.go lines 15-57)

Relational semantics of
  SELECT DISTINCT u.id, u.username, u.email, u.user_type, u.nickname,
         ut.permission_bitfield::text, COUNT(m.id) AS message_count
  FROM public.users u
  LEFT JOIN public.user_types ut ON ut.type_key = u.user_type
  LEFT JOIN public.messages m ON m.user_id = u.id
  GROUP BY u.id, u.username, u.email, u.user_type, u.nickname, ut.permission_bitfield
  ORDER BY u.id
over the embedded database state.  Grouping keeps the set of distinct group
keys (SQL prescribes no order before ORDER BY); COUNT(m.id) counts the
non-NULL message ids inside each group; SELECT DISTINCT is a no-op here
because every selected column except the count is a grouping column. -/

/-- A GROUP BY key: the six grouped columns (all of `u.*` that is selected,
plus the joined bitfield, NULL when the left join found no user_types row). -/
structure GroupKey where
  id : Int
  username : String
  email : String
  userType : String
  nickname : Option String
  bitfield : Option String
deriving DecidableEq, Repr

/-- One row of the double LEFT JOIN before grouping: the group columns plus
the joined message id (NULL when the user has no messages). -/
structure JoinRow where
  key : GroupKey
  mId : Option Int
deriving DecidableEq, Repr

/-- The join rows contributed by one user: the cartesian product of its
matching user_types rows (or a single NULL when none) with its messages
(or a single NULL when none). -/
def userJoinRows (userTypes : List UserTypeRow) (messages : List MessageRow)
    (u : UserRow) : List JoinRow :=
  let uts := userTypes.filter (fun t => t.typeKey == u.userType)
  let utVals : List (Option String) :=
    if uts.isEmpty then [none] else uts.map (fun t => some t.permissionBitfield)
  let ms := messages.filter (fun m => m.userId == u.id)
  let mIds : List (Option Int) :=
    if ms.isEmpty then [none] else ms.map (fun m => some m.id)
  utVals.flatMap (fun b => mIds.map (fun mid =>
    { key := { id := u.id, username := u.username, email := u.email,
               userType := u.userType, nickname := u.nickname, bitfield := b },
      mId := mid }))

/-- All rows of the double LEFT JOIN. -/
def getUsersJoinRows (db : DB) : List JoinRow :=
  db.users.flatMap (userJoinRows db.userTypes db.messages)

/-- A row of the query's result set (pre-Scan; the bitfield may be NULL when
the left join missed). -/
structure ReadRow where
  id : Int
  username : String
  email : String
  userType : String
  nickname : Option String
  bitfield : Option String
  messageCount : Nat
deriving DecidableEq, Repr

/-- The result row of one group: the group columns plus COUNT(m.id), the
number of join rows of the group carrying a non-NULL message id. -/
def recordOfKey (rows : List JoinRow) (k : GroupKey) : ReadRow :=
  { id := k.id, username := k.username, email := k.email, userType := k.userType,
    nickname := k.nickname, bitfield := k.bitfield,
    messageCount := (rows.filter (fun r => r.key == k && r.mId.isSome)).length }

/-- The grouped (and trivially DISTINCT) result set, before ORDER BY. -/
def getUsersRecords (db : DB) : List ReadRow :=
  let rows := getUsersJoinRows db
  ((rows.map JoinRow.key).dedup).map (recordOfKey rows)

instance : DecidableRel (fun a b : ReadRow => a.id ≤ b.id) :=
  fun a b => inferInstanceAs (Decidable (a.id ≤ b.id))

instance : IsTotal ReadRow (fun a b => a.id ≤ b.id) :=
  ⟨fun a b => Int.le_total a.id b.id⟩

instance : IsTrans ReadRow (fun a b => a.id ≤ b.id) :=
  ⟨fun _ _ _ h h2 => le_trans h h2⟩

/-- Embedding of `queries.GetUsers`: the grouped result set ordered by
`u.id` ascending. -/
def getUsersRows (db : DB) : List ReadRow :=
  List.insertionSort (fun a b => a.id ≤ b.id) (getUsersRecords db)

/-! ## Derived notions used by the theorems -/

/-- The stored nickname of a user id: `none` when the id is absent,
`some nick` (itself optional) when present. -/
def storedNickname (db : DB) (userID : Int) : Option (Option String) :=
  (findUser db userID).map (fun u => u.nickname)

/-- Specification-side description of the dynamic SET clause: the (column,
value) pairs of the present fields, in the fixed order username, email,
user_type, nickname.  Used to compare the builder against the spec. -/
def presentAssignments (params : UpdateUserParams) : List (String × SqlValue) :=
  (match params.username with
   | some u => [("username", SqlValue.str u)]
   | none => []) ++
  (match params.email with
   | some e => [("email", SqlValue.str e)]
   | none => []) ++
  (match params.userType with
   | some t => [("user_type", SqlValue.str t)]
   | none => []) ++
  (match params.nickname with
   | some n => [("nickname", SqlValue.text (updateNicknameText n))]
   | none => [])

/-! ## Theorems -/

/-- C3: a partial-update request with all four optional fields absent fails
with the "no fields to update" condition and leaves the database state
untouched (no storage statement is issued). -/
theorem updateUser_allAbsent_noFields (db : DB) (userID : Int) :
    runUpdateUser db userID ⟨none, none, none, none⟩ =
      (db, Except.error DbError.noFieldsToUpdate) ∧
    DbError.noFieldsToUpdate.message = "no fields to update" :=
  ⟨rfl, rfl⟩

/-- Witness for C3 at a concrete database (hypothesis-free claim, kept for
concreteness of evaluation). -/
theorem updateUser_allAbsent_noFields_witness :
    runUpdateUser ⟨[], [], [], 1, 1, 0⟩ 7 ⟨none, none, none, none⟩ =
      (⟨[], [], [], 1, 1, 0⟩, Except.error DbError.noFieldsToUpdate) :=
  (updateUser_allAbsent_noFields ⟨[], [], [], 1, 1, 0⟩ 7).1

/-- C10: in the create-user operation, a nickname supplied as the explicit
empty string is treated identically to an absent nickname — the whole
operation produces the same outcome, and both variants store NULL. -/
theorem createUser_emptyNickname_eq_absent (db : DB) (un em ut : String) (mc : Int) :
    runCreateUser db ⟨un, em, ut, some "", mc⟩ = runCreateUser db ⟨un, em, ut, none, mc⟩ ∧
    pgTextToDb (createUserNicknameText (some "")) = none ∧
    pgTextToDb (createUserNicknameText none) = none :=
  ⟨rfl, rfl, rfl⟩

/-- C4: the dynamically constructed SET clause has exactly one assignment
per present field, with placeholders numbered consecutively from $1 in the
fixed order username, email, user_type, nickname, and the target user id is
appended as the final positional parameter. -/
theorem updateUser_setClause_structure (params : UpdateUserParams) (userID : Int) :
    (updateUserBuild params).setParts =
      ((List.range (presentAssignments params).length).zip (presentAssignments params)).map
        (fun p => p.2.1 ++ " = $" ++ toString (p.1 + 1)) ∧
    (updateUserBuild params).args = (presentAssignments params).map Prod.snd ∧
    (updateUserBuild params).argCount = (presentAssignments params).length + 1 ∧
    updateUserQueryArgs params userID =
      (presentAssignments params).map Prod.snd ++ [SqlValue.int userID] := by
  obtain ⟨un, em, ut, ni⟩ := params
  cases un <;> cases em <;> cases ut <;> cases ni <;> exact ⟨rfl, rfl, rfl, rfl⟩

/-- C5: a partial-update request whose user_type is present but outside the
allowed set is rejected by the transport layer with 400 before the update is
attempted, and the database state is unchanged. -/
theorem updateUser_invalidType_rejected (db : DB) (userID : Int)
    (req : UpdateUserParams) (t : String)
    (ht : req.userType = some t) (hv : validUserTypes.contains t = false) :
    handleUpdateUser db userID req =
      (db, HResult.err 400 "Invalid user type. Must be one of: UTYPE_USER, UTYPE_ADMIN, UTYPE_MODERATOR") := by
  have hv2 : t ∉ validUserTypes := by simpa using hv
  simp [handleUpdateUser, ht, hv2]

/-- Witness for C5: the concrete user type "UTYPE_SUPER" is rejected. -/
theorem updateUser_invalidType_rejected_witness :
    handleUpdateUser ⟨[], [], [], 1, 1, 0⟩ 1 ⟨none, none, some "UTYPE_SUPER", none⟩ =
      (⟨[], [], [], 1, 1, 0⟩, HResult.err 400 "Invalid user type. Must be one of: UTYPE_USER, UTYPE_ADMIN, UTYPE_MODERATOR") :=
  updateUser_invalidType_rejected ⟨[], [], [], 1, 1, 0⟩ 1
    ⟨none, none, some "UTYPE_SUPER", none⟩ "UTYPE_SUPER" rfl (by decide)

/-- C1 (evaluation at the failing input): updating a user id that is absent
from storage makes the data-access layer surface the raw pgx error
"no rows in result set"; since the transport layer only maps the exact
message "user not found" to 404, the response is the generic 400, not 404.
The query layer never produces a "user not found" error, so the handler's
404 branch is unreachable. -/
theorem updateUser_missingTarget_maps_to_400 :
    handleUpdateUser ⟨[], [], [], 1, 1, 0⟩ 42 ⟨some "bob", none, none, none⟩ =
      (⟨[], [], [], 1, 1, 0⟩, HResult.err 400 "Failed to update user: no rows in result set") := by
  decide

/-- The row update preserves the primary key. -/
theorem applyUserUpdate_id (params : UpdateUserParams) (u : UserRow) :
    (applyUserUpdate params u).id = u.id := rfl

/-- Finding by id after mapping an id-preserving per-row update over the
table commutes with finding first and then updating. -/
theorem find_map_update (l : List UserRow) (userID : Int) (f : UserRow → UserRow)
    (hf : ∀ u, (f u).id = u.id) :
    (l.map (fun v => if v.id == userID then f v else v)).find? (fun u => u.id == userID) =
      (l.find? (fun u => u.id == userID)).map f := by
  induction l with
  | nil => rfl
  | cons h t ih =>
    simp only [List.map_cons, List.find?_cons]
    cases hid : (h.id == userID) with
    | true =>
      have hfid : ((f h).id == userID) = true := by rw [hf h]; exact hid
      simp [hfid]
    | false =>
      simp only [Bool.false_eq_true, if_false, hid]
      exact ih

/-- An empty SET clause forces every optional field to be absent. -/
theorem setParts_empty_allNone (params : UpdateUserParams)
    (h : (updateUserBuild params).setParts.isEmpty = true) :
    params = ⟨none, none, none, none⟩ := by
  obtain ⟨un, em, ut, ni⟩ := params
  cases un <;> cases em <;> cases ut <;> cases ni <;> simp_all [updateUserBuild]

/-- The stored value of the nickname conversion used by the update. -/
theorem updateNicknameText_toDb (s : String) :
    pgTextToDb (updateNicknameText s) = if s = "" then none else some s := by
  by_cases h : s = "" <;> simp [updateNicknameText, pgTextToDb, h]

/-- C2: the partial update's nickname has three-state semantics — an absent
nickname leaves the stored value unchanged, a present non-empty nickname
overwrites it, and a present empty string clears it to NULL. -/
theorem updateUser_nickname_threeState (db : DB) (userID : Int)
    (params : UpdateUserParams) (u : UserRow)
    (hu : findUser db userID = some u)
    (hc : updateConflicts db userID (applyUserUpdate params u) = false) :
    storedNickname (runUpdateUser db userID params).1 userID =
      some (match params.nickname with
            | none => u.nickname
            | some s => if s = "" then none else some s) := by
  have hnick : (applyUserUpdate params u).nickname =
      (match params.nickname with
       | none => u.nickname
       | some s => if s = "" then none else some s) := by
    cases hn : params.nickname with
    | none => simp [applyUserUpdate, hn]
    | some s => simp [applyUserUpdate, hn, updateNicknameText_toDb]
  cases hempty : (updateUserBuild params).setParts.isEmpty with
  | true =>
    have hall := setParts_empty_allNone params hempty
    subst hall
    simp [runUpdateUser, updateUserBuild, storedNickname, hu]
  | false =>
    have hfind : storedNickname
        { db with users := db.users.map (fun v => if v.id == userID then applyUserUpdate params v else v) } userID
          = some ((applyUserUpdate params u).nickname) := by
      unfold storedNickname findUser
      rw [find_map_update db.users userID (applyUserUpdate params) (applyUserUpdate_id params)]
      rw [show db.users.find? (fun v => v.id == userID) = some u from hu]
      rfl
    rw [← hnick]
    unfold runUpdateUser
    simp only [hempty, Bool.false_eq_true, if_false, hu, hc]
    cases hbf : lookupBitfield db.userTypes (applyUserUpdate params u).userType with
    | none => simp only [hbf]; exact hfind
    | some bf => simp only [hbf]; exact hfind

/-- C6: when the row update succeeds but the follow-up permission-bitfield
lookup misses, the whole operation returns the wrapped lookup error while
the updated row remains committed in the returned database state — the two
statements are not atomic and no rollback occurs. -/
theorem updateUser_lookupMiss_commits (db : DB) (userID : Int)
    (params : UpdateUserParams) (u : UserRow)
    (hu : findUser db userID = some u)
    (hne : (updateUserBuild params).setParts.isEmpty = false)
    (hc : updateConflicts db userID (applyUserUpdate params u) = false)
    (hbf : lookupBitfield db.userTypes (applyUserUpdate params u).userType = none) :
    (runUpdateUser db userID params).2 =
      Except.error (DbError.wrapped "failed to get permission bitfield" DbError.noRows) ∧
    findUser (runUpdateUser db userID params).1 userID = some (applyUserUpdate params u) := by
  have hfind : findUser
      { db with users := db.users.map (fun v => if v.id == userID then applyUserUpdate params v else v) } userID
        = some (applyUserUpdate params u) := by
    unfold findUser
    rw [find_map_update db.users userID (applyUserUpdate params) (applyUserUpdate_id params)]
    rw [show db.users.find? (fun v => v.id == userID) = some u from hu]
    rfl
  unfold runUpdateUser
  simp only [hne, Bool.false_eq_true, if_false, hu, hc, hbf]
  exact ⟨trivial, hfind⟩

/-- A successful data-layer update always reports MessageCount 0 (the
literal assignment after the bitfield lookup). -/
theorem runUpdateUser_ok_messageCount (db : DB) (userID : Int)
    (params : UpdateUserParams) (db2 : DB) (row : GetUsersQueryRow)
    (h : runUpdateUser db userID params = (db2, Except.ok row)) :
    row.messageCount = 0 := by
  cases hempty : (updateUserBuild params).setParts.isEmpty with
  | true =>
    unfold runUpdateUser at h
    simp only [hempty, if_true] at h
    simp at h
  | false =>
    cases hfu : findUser db userID with
    | none =>
      unfold runUpdateUser at h
      simp only [hempty, Bool.false_eq_true, if_false, hfu] at h
      simp at h
    | some u =>
      cases hcf : updateConflicts db userID (applyUserUpdate params u) with
      | true =>
        unfold runUpdateUser at h
        simp only [hempty, Bool.false_eq_true, if_false, hfu, hcf, if_true] at h
        simp at h
      | false =>
        cases hbf : lookupBitfield db.userTypes (applyUserUpdate params u).userType with
        | none =>
          unfold runUpdateUser at h
          simp only [hempty, Bool.false_eq_true, if_false, hfu, hcf, hbf] at h
          simp at h
        | some bf =>
          unfold runUpdateUser at h
          simp only [hempty, Bool.false_eq_true, if_false, hfu, hcf, hbf] at h
          simp at h
          obtain ⟨h1, h2⟩ := h
          rw [← h2]

/-- C9: every successful PATCH response carries message_count 0, regardless
of how many messages the user owns. -/
theorem updateUser_response_messageCount_zero (db : DB) (userID : Int)
    (params : UpdateUserParams) (db2 : DB) (st : Nat) (r : UserResponse)
    (h : handleUpdateUser db userID params = (db2, HResult.ok st r)) :
    r.messageCount = 0 := by
  unfold handleUpdateUser at h
  split at h
  · simp at h
  · cases hrun : runUpdateUser db userID params with
    | mk dbr res =>
      rw [hrun] at h
      cases res with
      | error e =>
        split at h
        · split at h <;> simp at h
        · simp_all
      | ok row =>
        simp at h
        obtain ⟨h1, h2, h3⟩ := h
        rw [← h3]
        have hz := runUpdateUser_ok_messageCount db userID params dbr row hrun
        simpa [userResponseOf] using hz

/-! ## Concrete databases used by the witnesses -/

/-- One stored user with a set nickname, and a matching user_types row. -/
def wNickDb : DB :=
  ⟨[⟨1, "Liam", "liam@email.com", some "L dawg", "UTYPE_ADMIN", 0, 1⟩],
   [⟨1, "UTYPE_ADMIN", "10000000"⟩], [], 2, 1, 0⟩

/-- The stored row of `wNickDb`. -/
def wNickU : UserRow := ⟨1, "Liam", "liam@email.com", some "L dawg", "UTYPE_ADMIN", 0, 1⟩

/-- Witness for C2: setting the nickname to "Neo" stores `some "Neo"`. -/
theorem updateUser_nickname_threeState_witness :
    storedNickname (runUpdateUser wNickDb 1 ⟨none, none, none, some "Neo"⟩).1 1 = some (some "Neo") :=
  (updateUser_nickname_threeState wNickDb 1 ⟨none, none, none, some "Neo"⟩ wNickU
    (by decide) (by decide)).trans (by decide)

/-- A database whose single user has a user type with no user_types row. -/
def wMissDb : DB := ⟨[⟨1, "Neo", "neo@x", none, "UTYPE_GONE", 0, 0⟩], [], [], 2, 1, 0⟩

/-- The stored row of `wMissDb`. -/
def wMissU : UserRow := ⟨1, "Neo", "neo@x", none, "UTYPE_GONE", 0, 0⟩

/-- Witness for C6: renaming the user succeeds and commits even though the
bitfield lookup then fails the operation. -/
theorem updateUser_lookupMiss_commits_witness :
    (runUpdateUser wMissDb 1 ⟨some "Trinity", none, none, none⟩).2 =
      Except.error (DbError.wrapped "failed to get permission bitfield" DbError.noRows) ∧
    findUser (runUpdateUser wMissDb 1 ⟨some "Trinity", none, none, none⟩).1 1 =
      some (applyUserUpdate ⟨some "Trinity", none, none, none⟩ wMissU) :=
  updateUser_lookupMiss_commits wMissDb 1 ⟨some "Trinity", none, none, none⟩ wMissU
    (by decide) (by decide) (by decide) (by decide)

/-- A database whose single user owns two messages. -/
def wMsgDb : DB :=
  ⟨[⟨1, "Jon", "jon@email.com", none, "UTYPE_USER", 0, 2⟩],
   [⟨1, "UTYPE_USER", "00000000"⟩],
   [⟨1, 1, "m1", 1⟩, ⟨2, 1, "m2", 2⟩], 2, 3, 9⟩

/-- The state of `wMsgDb` after renaming its user to "Jonny". -/
def wMsgDb2 : DB :=
  ⟨[⟨1, "Jonny", "jon@email.com", none, "UTYPE_USER", 0, 2⟩],
   [⟨1, "UTYPE_USER", "00000000"⟩],
   [⟨1, 1, "m1", 1⟩, ⟨2, 1, "m2", 2⟩], 2, 3, 9⟩

/-- The PATCH response produced for that rename. -/
def wMsgResp : UserResponse := ⟨1, "Jonny", "jon@email.com", "UTYPE_USER", none, 0⟩

/-- Witness for C9: a user owning two messages is renamed; the PATCH
succeeds with message_count 0 in the response. -/
theorem updateUser_response_messageCount_zero_witness :
    handleUpdateUser wMsgDb 1 ⟨some "Jonny", none, none, none⟩ = (wMsgDb2, HResult.ok 200 wMsgResp) ∧
    wMsgResp.messageCount = 0 :=
  ⟨by decide,
   updateUser_response_messageCount_zero wMsgDb 1 ⟨some "Jonny", none, none, none⟩
     wMsgDb2 200 wMsgResp (by decide)⟩

/-- A database containing a (manually seeded) user with the negative id -1. -/
def wNegDb : DB := ⟨[⟨-1, "n", "n@x", none, "UTYPE_USER", 0, 0⟩], [], [], 1, 1, 5⟩

/-- The state of `wNegDb` after the message insert below. -/
def wNegDb2 : DB :=
  ⟨[⟨-1, "n", "n@x", none, "UTYPE_USER", 0, 0⟩], [], [⟨1, -1, "hi", 5⟩], 1, 2, 5⟩

/-- C8 counterexample: a POST /messages request whose user identity is the
negative value -1 (hence not positive) passes the transport layer's
binding-only validation, invokes storage, and even mutates it — the request
is not rejected, contradicting the claim that positivity is validated at
the transport boundary before storage is invoked. -/
theorem createMessage_negativeUserId_reachesStorage :
    handleCreateMessage wNegDb ⟨some (-1), some "hi"⟩ =
      (wNegDb2, HResult.ok 201 ⟨1, -1, "hi", 5⟩) ∧
    wNegDb2.messages ≠ wNegDb.messages := by
  exact ⟨by decide, by decide⟩

/-- C8 (amended): the transport layer enforces required-with-nonzero-value
semantics via gin binding: a message-create body whose user identity is
absent or zero, or whose content is absent or empty, is rejected with 400
and storage is not touched.  (Positivity beyond non-zero is not enforced —
see the counterexample.) -/
theorem createMessage_requiredBinding_rejects (db : DB) (body : RawCreateMessageBody)
    (h : body.userIdField.getD 0 = 0 ∨ body.contentField.getD "" = "") :
    (handleCreateMessage db body).1 = db ∧
    ∃ m, (handleCreateMessage db body).2 = HResult.err 400 ("Invalid request body: " ++ m) := by
  unfold handleCreateMessage bindCreateMessage
  rcases h with h | h
  · simp [h]
    exact ⟨"Field validation for UserID failed on the required tag", by decide⟩
  · by_cases h0 : body.userIdField.getD 0 = 0
    · simp [h0]
      exact ⟨"Field validation for UserID failed on the required tag", by decide⟩
    · simp [h, h0]
      exact ⟨"Field validation for Content failed on the required tag", by decide⟩

/-- Witness for the amended C8: an empty content is rejected without any
storage mutation. -/
theorem createMessage_requiredBinding_rejects_witness :
    (handleCreateMessage ⟨[], [], [], 1, 1, 0⟩ ⟨some 3, some ""⟩).1 = ⟨[], [], [], 1, 1, 0⟩ ∧
    ∃ m, (handleCreateMessage ⟨[], [], [], 1, 1, 0⟩ ⟨some 3, some ""⟩).2 =
      HResult.err 400 ("Invalid request body: " ++ m) :=
  createMessage_requiredBinding_rejects ⟨[], [], [], 1, 1, 0⟩ ⟨some 3, some ""⟩ (Or.inr rfl)

/-! ## GetUsers grouping lemmas (claim C7) -/

/-- The bitfield the first matching user_types row would contribute for a
user (NULL when no row matches). -/
def headBitfield (userTypes : List UserTypeRow) (u : UserRow) : Option String :=
  ((userTypes.filter (fun t => t.typeKey == u.userType)).head?).map (fun t => t.permissionBitfield)

/-- The single group key a user contributes when all its matching
user_types rows agree on the bitfield. -/
def keyOf (userTypes : List UserTypeRow) (u : UserRow) : GroupKey :=
  ⟨u.id, u.username, u.email, u.userType, u.nickname, headBitfield userTypes u⟩

/-- Every user contributes at least one join row (the left joins pad with
NULL instead of dropping the user). -/
theorem userJoinRows_ne_nil (uts : List UserTypeRow) (msgs : List MessageRow) (u : UserRow) :
    userJoinRows uts msgs u ≠ [] := by
  have hm : (if (msgs.filter (fun m => m.userId == u.id)).isEmpty
      then ([none] : List (Option Int))
      else (msgs.filter (fun m => m.userId == u.id)).map (fun m => some m.id)) ≠ [] := by
    cases hc : (msgs.filter (fun m => m.userId == u.id)).isEmpty with
    | true => simp
    | false =>
      rw [if_neg (by simp [hc])]
      simp only [ne_eq, List.map_eq_nil_iff]
      exact List.isEmpty_eq_false.mp hc
  have hu : (if (uts.filter (fun t => t.typeKey == u.userType)).isEmpty
      then ([none] : List (Option String))
      else (uts.filter (fun t => t.typeKey == u.userType)).map (fun t => some t.permissionBitfield)) ≠ [] := by
    cases hc : (uts.filter (fun t => t.typeKey == u.userType)).isEmpty with
    | true => simp
    | false =>
      rw [if_neg (by simp [hc])]
      simp only [ne_eq, List.map_eq_nil_iff]
      exact List.isEmpty_eq_false.mp hc
  intro heq
  simp only [userJoinRows] at heq
  rw [List.flatMap_eq_nil_iff] at heq
  obtain ⟨b, hb⟩ := List.exists_mem_of_ne_nil _ hu
  have hx := heq b hb
  rw [List.map_eq_nil_iff] at hx
  exact hm hx

/-- Every join row of a user carries that user's id in its group key. -/
theorem userJoinRows_key_id (uts : List UserTypeRow) (msgs : List MessageRow) (u : UserRow)
    (r : JoinRow) (hr : r ∈ userJoinRows uts msgs u) :
    r.key.id = u.id := by
  simp only [userJoinRows, List.mem_flatMap, List.mem_map] at hr
  obtain ⟨b, hb, mid, hmid, rfl⟩ := hr
  rfl

/-- When all user_types rows matching a user's type agree on the bitfield,
all of the user's join rows share the single group key `keyOf`. -/
theorem userJoinRows_key_const (uts : List UserTypeRow) (msgs : List MessageRow) (u : UserRow)
    (h2 : ∀ t1 ∈ uts, ∀ t2 ∈ uts, t1.typeKey = u.userType → t2.typeKey = u.userType →
      t1.permissionBitfield = t2.permissionBitfield)
    (r : JoinRow) (hr : r ∈ userJoinRows uts msgs u) :
    r.key = keyOf uts u := by
  simp only [userJoinRows, List.mem_flatMap, List.mem_map] at hr
  obtain ⟨b, hb, mid, hmid, rfl⟩ := hr
  have hbf : b = headBitfield uts u := by
    cases hf : uts.filter (fun t => t.typeKey == u.userType) with
    | nil =>
      rw [hf] at hb
      simp at hb
      subst hb
      simp [headBitfield, hf]
    | cons t0 ts =>
      rw [hf] at hb
      simp only [List.isEmpty_cons, if_false, Bool.false_eq_true] at hb
      obtain ⟨t, ht, rfl⟩ := List.mem_map.mp hb
      have ht0 : t0 ∈ uts.filter (fun t => t.typeKey == u.userType) := by
        rw [hf]; exact List.mem_cons_self t0 ts
      have htf : t ∈ uts.filter (fun t => t.typeKey == u.userType) := by
        rw [hf]; exact ht
      obtain ⟨htu, htp⟩ := List.mem_filter.mp htf
      obtain ⟨ht0u, ht0p⟩ := List.mem_filter.mp ht0
      have heqbf : t.permissionBitfield = t0.permissionBitfield :=
        h2 t htu t0 ht0u (by simpa using htp) (by simpa using ht0p)
      simp [headBitfield, hf, heqbf]
  simp [keyOf, hbf]

/-- Deduplicating a nonempty constant block followed by a list avoiding the
block's value keeps exactly one copy of the value in front. -/
theorem dedup_const_block {A : Type} [DecidableEq A] (k : A) :
    ∀ (xs ys : List A), xs ≠ [] → (∀ x ∈ xs, x = k) → k ∉ ys →
      (xs ++ ys).dedup = k :: ys.dedup := by
  intro xs
  induction xs with
  | nil => intro ys h; cases h rfl
  | cons a xs ih =>
    intro ys hne hall hk
    have ha : a = k := hall a (List.mem_cons_self a xs)
    subst ha
    cases hxs : xs with
    | nil =>
      subst hxs
      simp only [List.cons_append, List.nil_append]
      rw [List.dedup_cons_of_not_mem hk]
    | cons b xs2 =>
      have hb : b = a := hall b (by rw [hxs]; exact List.mem_cons_of_mem _ (List.mem_cons_self _ _))
      have hkmem : a ∈ b :: xs2 ++ ys := by
        rw [hb]; exact List.mem_cons_self _ _
      rw [List.cons_append, List.dedup_cons_of_mem hkmem]
      have hres := ih ys (by rw [hxs]; simp) (fun x hx => hall x (List.mem_cons_of_mem _ hx)) hk
      rw [hxs] at hres
      exact hres

/-- Under distinct user ids and per-user bitfield agreement, the distinct
group keys of the join are exactly one key per stored user, in order. -/
theorem keys_dedup (uts : List UserTypeRow) (msgs : List MessageRow) :
    ∀ (users : List UserRow),
      (users.map (fun u => u.id)).Nodup →
      (∀ u ∈ users, ∀ t1 ∈ uts, ∀ t2 ∈ uts, t1.typeKey = u.userType → t2.typeKey = u.userType →
        t1.permissionBitfield = t2.permissionBitfield) →
      ((users.flatMap (userJoinRows uts msgs)).map JoinRow.key).dedup = users.map (keyOf uts) := by
  intro users
  induction users with
  | nil => intro _ _; rfl
  | cons u us ih =>
    intro hnd h2
    have hA : (userJoinRows uts msgs u).map JoinRow.key ≠ [] := by
      simp only [ne_eq, List.map_eq_nil_iff]
      exact userJoinRows_ne_nil uts msgs u
    have hB : ∀ x ∈ (userJoinRows uts msgs u).map JoinRow.key, x = keyOf uts u := by
      intro x hx
      obtain ⟨r, hr, rfl⟩ := List.mem_map.mp hx
      exact userJoinRows_key_const uts msgs u (h2 u (List.mem_cons_self u us)) r hr
    have hC : keyOf uts u ∉ (us.flatMap (userJoinRows uts msgs)).map JoinRow.key := by
      intro hmem
      rw [List.map_flatMap] at hmem
      rw [List.mem_flatMap] at hmem
      obtain ⟨u2, hu2, hk⟩ := hmem
      obtain ⟨r, hr, hkey⟩ := List.mem_map.mp hk
      have hid : u.id = u2.id := by
        have hkid := userJoinRows_key_id uts msgs u2 r hr
        rw [hkey] at hkid
        exact hkid
      have hin : u.id ∈ us.map (fun v => v.id) := by
        rw [hid]
        exact List.mem_map_of_mem _ hu2
      have hnotin : u.id ∉ us.map (fun v => v.id) := by
        rw [List.map_cons] at hnd
        exact (List.nodup_cons.mp hnd).1
      exact hnotin hin
    rw [List.flatMap_cons, List.map_append]
    rw [dedup_const_block (keyOf uts u) _ _ hA hB hC]
    rw [ih (by rw [List.map_cons] at hnd; exact (List.nodup_cons.mp hnd).2)
        (fun v hv => h2 v (List.mem_cons_of_mem _ hv))]
    rfl

/-- C7 (amended): when user ids are distinct (the primary key) and, for each
user, every matching user_types row carries the same permission bitfield,
the user read returns exactly one record per distinct user identity and the
records are ordered by user id ascending.  (Without the bitfield-agreement
condition the GROUP BY splits a user across groups — see the
counterexample.) -/
theorem getUsers_one_record_per_user (db : DB)
    (h1 : (db.users.map (fun u => u.id)).Nodup)
    (h2 : ∀ u ∈ db.users, ∀ t1 ∈ db.userTypes, ∀ t2 ∈ db.userTypes,
      t1.typeKey = u.userType → t2.typeKey = u.userType →
      t1.permissionBitfield = t2.permissionBitfield) :
    (getUsersRows db).length = ((db.users.map (fun u => u.id)).dedup).length ∧
    List.Sorted (fun a b => a ≤ b) ((getUsersRows db).map (fun r => r.id)) ∧
    List.Perm ((getUsersRows db).map (fun r => r.id)) (db.users.map (fun u => u.id)) := by
  have hkeys := keys_dedup db.userTypes db.messages db.users h1 h2
  have hrecs : getUsersRecords db =
      (db.users.map (keyOf db.userTypes)).map (recordOfKey (getUsersJoinRows db)) := by
    simp only [getUsersRecords, getUsersJoinRows]
    rw [hkeys]
  have hrecsid : (getUsersRecords db).map (fun r => r.id) = db.users.map (fun u => u.id) := by
    rw [hrecs, List.map_map, List.map_map]
    rfl
  refine ⟨?_, ?_, ?_⟩
  · have hL1 : (getUsersRows db).length = (getUsersRecords db).length := by
      unfold getUsersRows
      exact List.length_insertionSort _ _
    rw [hL1, hrecs, List.Nodup.dedup h1]
    simp [List.length_map]
  · have hs : List.Pairwise (fun a b : ReadRow => a.id ≤ b.id) (getUsersRows db) :=
      List.sorted_insertionSort (fun a b : ReadRow => a.id ≤ b.id) (getUsersRecords db)
    exact List.Pairwise.map (fun r : ReadRow => r.id) (fun a b hab => hab) hs
  · have hp := List.perm_insertionSort (fun a b : ReadRow => a.id ≤ b.id) (getUsersRecords db)
    have hpm := hp.map (fun r => r.id)
    rw [hrecsid] at hpm
    exact hpm

/-- A database whose single user's type matches two user_types rows with
different bitfields (the schema has no uniqueness constraint on type_key). -/
def wDupDb : DB :=
  ⟨[⟨1, "a", "a@x", none, "UTYPE_X", 0, 0⟩],
   [⟨1, "UTYPE_X", "10000000"⟩, ⟨2, "UTYPE_X", "01000000"⟩],
   [], 2, 1, 0⟩

/-- C7 counterexample: with two user_types rows sharing a type key but
holding different bitfields, the user read returns two records for one
stored user — the record count does not equal the number of distinct user
identities, refuting the claim as stated. -/
theorem getUsers_duplicateTypeKey_duplicatesRecords :
    (getUsersRows wDupDb).length = 2 ∧
    ((wDupDb.users.map (fun u => u.id)).dedup).length = 1 ∧
    ¬((getUsersRows wDupDb).length = ((wDupDb.users.map (fun u => u.id)).dedup).length) :=
  ⟨by decide, by decide, by decide⟩

/-- The seed database from the docker SQL (its duplicate UTYPE_ADMIN rows
share the bitfield, so the amended C7 hypotheses hold). -/
def wSeedDb : DB :=
  ⟨[⟨1, "Liam", "liam@email.com", some "L dawg", "UTYPE_ADMIN", 0, 1⟩,
    ⟨2, "Jon", "jon@email.com", none, "UTYPE_USER", 0, 2⟩,
    ⟨3, "Myles", "myles@email.com", some "Big M", "UTYPE_USER", 0, 2⟩],
   [⟨1, "UTYPE_USER", "00000000"⟩, ⟨2, "UTYPE_ADMIN", "10000000"⟩,
    ⟨3, "UTYPE_ADMIN", "10000000"⟩, ⟨4, "UTYPE_MODERATOR", "01000000"⟩],
   [⟨1, 1, "m1", 1⟩, ⟨2, 2, "m2", 2⟩, ⟨3, 3, "m3", 3⟩, ⟨4, 2, "m4", 4⟩, ⟨5, 3, "m5", 5⟩],
   4, 6, 10⟩

/-- Witness for the amended C7 at the seed data. -/
theorem getUsers_one_record_per_user_witness :
    (getUsersRows wSeedDb).length = ((wSeedDb.users.map (fun u => u.id)).dedup).length ∧
    List.Sorted (fun a b => a ≤ b) ((getUsersRows wSeedDb).map (fun r => r.id)) ∧
    List.Perm ((getUsersRows wSeedDb).map (fun r => r.id)) (wSeedDb.users.map (fun u => u.id)) :=
  getUsers_one_record_per_user wSeedDb (by decide) (by decide)
